import Mathlib

/-
  Verification development for the ai-context-sync synchronization engine.

  Shallow embedding of:
  - pattern matching and transform rules (src/core/handlers/base-target-handler.ts,
    UniversalHandler),
  - the VSCode handler's destination-path resolution (src/core/handlers/vscode-handler.ts),
  - the per-pair sync pipeline of BaseTargetHandler.sync and the TargetManager
    dispatch (src/core/handlers/target-manager.ts),
  - the FileChangeTracker (file-change-tracker.ts),
  - the SyncManager engine in full and incremental modes (src/core/SyncManager.ts),
  - handler registration as performed by the Syncer constructor (src/core/syncer.ts).

  Filesystem effects are modelled by an explicit `World`: a snapshot of regular
  files (keyed by resolved path) plus injectable outcomes for directory creation
  and writes.  Wall-clock fields of results (timestamp, duration) are outside
  the model.  JavaScript exceptions are modelled with `Except`.
-/

set_option linter.unusedVariables false

namespace AiContextSync

/-- Split a character list at every occurrence of the separator (the semantics
of `String.splitOn` for a one-character separator, implemented structurally so
that every proof can evaluate it). -/
def splitChar (sep : Char) : List Char → List (List Char)
  | [] => [[]]
  | c :: cs =>
    let r := splitChar sep cs
    if c == sep then [] :: r
    else
      match r with
      | [] => [[c]]
      | h :: t => (c :: h) :: t

/-- Join character-list components with slashes (inverse of `splitChar '/'`). -/
def joinWithSlash : List (List Char) → List Char
  | [] => []
  | [x] => x
  | x :: xs => x ++ '/' :: joinWithSlash xs

/-- POSIX basename: the component after the last slash.  Models Node's
`path.basename` for the slash-separated paths used by this program
(trailing-slash trimming and Windows separators are outside the model). -/
def basename (p : String) : String :=
  ⟨(splitChar '/' p.data).getLastD p.data⟩

/-- Models Node's `path.join` of two components for the simple relative/absolute
paths this program produces (no `..` normalization needed by any claim). -/
def pathJoin (a b : String) : String :=
  if a.data.isEmpty then b
  else if a.data.getLastD ' ' == '/' then a ++ b
  else a ++ "/" ++ b

/-- Drop the final path component, as `path.dirname` does; only used as the key
for the ensure-directory-exists effect. -/
def dirname (p : String) : String :=
  let parts := splitChar '/' p.data
  if parts.length ≤ 1 then "." else ⟨joinWithSlash parts.dropLast⟩

/-- Does a literal regex segment (where `.` matches any character) match at the
head of the string? -/
def segMatchesAt : List Char → List Char → Bool
  | [], _ => true
  | _ :: _, [] => false
  | pc :: ps, c :: cs => (pc == '.' || pc == c) && segMatchesAt ps cs

/-- Scan for the first position where the segment matches; return the remainder
of the string after that occurrence. -/
def findAndDrop (seg : List Char) : List Char → Option (List Char)
  | [] => if seg.length == 0 then some [] else none
  | c :: cs =>
    if segMatchesAt seg (c :: cs) then some ((c :: cs).drop seg.length)
    else findAndDrop seg cs

/-- Match the segments (the pieces of the pattern between `*` wildcards) in
order, each after the previous one. -/
def segsMatch : List (List Char) → List Char → Bool
  | [], _ => true
  | seg :: rest, s =>
    match findAndDrop seg s with
    | some s1 => segsMatch rest s1
    | none => false

/-- `new RegExp(pattern.replace(/\*/g, '.*')).test(fileName)`: the unanchored
regex built from the `*`-wildcard pattern, where the pieces between the stars
must occur in order (`.` matching any single character). -/
def wildcardTest (pattern fileName : String) : Bool :=
  segsMatch (splitChar '*' pattern.data) fileName.data

/-- `matchesSourcePattern` shared by UniversalHandler and VSCodeHandler:
wildcard patterns are tested against the basename; otherwise the pattern must
equal the basename or be a suffix of the full source path
(`source.endsWith(pattern)`). -/
def matchesSourcePattern (source pattern : String) : Bool :=
  if pattern.data.any (fun c => c == '*') then wildcardTest pattern (basename source)
  else basename source == pattern || pattern.data.isSuffixOf source.data

/-- A transform rule from the configuration (`TransformRule` in types/index.ts).
The `type` tag is an open string as in the source. -/
structure TransformRule where
  type : String
  pattern : Option String := none
  replacement : Option String := none
deriving DecidableEq, Repr

/-- One step of `applyTransformRules`.  Truthiness of `rule.pattern` and
`rule.replacement` in the JS guards maps to "present and non-empty" /
"present".  The `replace` rule is modelled for literal patterns (the global
regex replaces every occurrence); regex metacharacter semantics are outside
the model, as no claim depends on them. -/
def applyRule (content : String) (r : TransformRule) : String :=
  if r.type == "replace" then
    match r.pattern, r.replacement with
    | some p, some rep => if p == "" then content else content.replace p rep
    | _, _ => content
  else if r.type == "prepend" then
    match r.replacement with
    | some rep => if rep == "" then content else rep ++ content
    | _ => content
  else if r.type == "append" then
    match r.replacement with
    | some rep => if rep == "" then content else content ++ rep
    | _ => content
  else content

/-- `applyTransformRules`: the rules are folded over the content in declared
order. -/
def applyTransformRules (content : String) (rules : List TransformRule) : String :=
  rules.foldl applyRule content

/-- `FileMapping` from the configuration types. -/
structure FileMapping where
  source : String
  destination : String
  transform : Option (List TransformRule) := none
deriving DecidableEq, Repr

/-- `TargetConfig`: one target descriptor.  Optional fields are `Option`s, with
JS `undefined` as `none`. -/
structure TargetConfig where
  name : String
  type : String
  path : Option String := none
  mapping : Option (List FileMapping) := none
  enabled : Option Bool := none
deriving DecidableEq, Repr

/-- `SyncResult` without the wall-clock fields (timestamp, duration), which are
outside the model. -/
structure SyncResult where
  success : Bool
  message : String
  files : List String
  errors : List String
deriving DecidableEq, Repr

/-- The engine configuration consumed by SyncManager. -/
structure SyncConfig where
  sources : List String
  targets : List TargetConfig
  mode : String
deriving DecidableEq, Repr

/-- The error message thrown by `UniversalHandler.getTargetPath` when no
mapping matches. -/
def noMappingMsg (fileName targetName : String) : String :=
  "No mapping found for source file: " ++ fileName ++ " in target: " ++ targetName ++
    ". Please add a mapping in ai-context-sync.config.json for this file."

/-- `UniversalHandler.getTargetPath`: first mapping whose pattern matches wins
and its destination is returned verbatim; otherwise a configuration error is
thrown.  An absent mapping list and an empty one both reach the throw, exactly
as in the source. -/
def universalGetTargetPath (target : TargetConfig) (source : String) :
    Except String String :=
  match (target.mapping.getD []).find? (fun m => matchesSourcePattern source m.source) with
  | some m => .ok m.destination
  | none => .error (noMappingMsg (basename source) target.name)

/-- `UniversalHandler.transform(content, target, source?)`: only when both a
mapping list and a (truthy, hence non-empty) source are supplied does it fold
over all mappings, applying the transform rules of every mapping whose pattern
matches the source. -/
def universalTransform (content : String) (target : TargetConfig)
    (source : Option String) : String :=
  match target.mapping, source with
  | some ms, some src =>
    if src == "" then content
    else
      ms.foldl (fun c m =>
        if matchesSourcePattern src m.source then
          match m.transform with
          | some rules => applyTransformRules c rules
          | none => c
        else c) content
  | _, _ => content

/-- `UniversalHandler.validateSpecific`: a non-empty mapping list whose entries
all have non-empty source and destination. -/
def universalValidateSpecific (target : TargetConfig) : Bool :=
  match target.mapping with
  | none => false
  | some ms => !ms.isEmpty && ms.all (fun m => m.source != "" && m.destination != "")

/-- `VSCodeHandler.canHandle`. -/
def vscodeCanHandle (type : String) : Bool := type == "vscode"

/-- `VSCodeHandler.getTargetPath`: a matching mapping resolves against the
target path; with no match the handler falls back to joining the target path
with the source filename (the markdown branch and the generic branch of the
source produce the same join and are collapsed here).  `target.path` is
required by validation; the undefined case is modelled as "".  This function
never fails; the `Except` return type is only for uniformity with the other
handlers. -/
def vscodeGetTargetPath (target : TargetConfig) (source : String) :
    Except String String :=
  match (target.mapping.getD []).find? (fun m => matchesSourcePattern source m.source) with
  | some m => .ok (pathJoin (target.path.getD "") m.destination)
  | none => .ok (pathJoin (target.path.getD "") (basename source))

/-- `canHandle` of the Kiro handler. -/
def kiroCanHandle (type : String) : Bool := type == "kiro"

/-- `canHandle` of the Cursor handler. -/
def cursorCanHandle (type : String) : Bool := type == "cursor"

/-- `canHandle` of the Claude Code handler. -/
def claudeCodeCanHandle (type : String) : Bool := type == "claudecode"

/-- `canHandle` of the Gemini CLI handler. -/
def geminiCLICanHandle (type : String) : Bool := type == "gemini-cli"

/-- `canHandle` of the universal handler: every type. -/
def universalCanHandle (type : String) : Bool := true

/-- The fingerprint stored per tracked file (`FileChangeInfo`): modification
time as epoch milliseconds (`Date.getTime()`), size in bytes, content hash. -/
structure FileChangeInfo where
  path : String
  lastModified : Int
  size : Nat
  hash : String
deriving DecidableEq, Repr

/-- A regular file in the filesystem snapshot. -/
structure FileState where
  content : String
  mtimeMs : Int
deriving DecidableEq, Repr

/-- The filesystem as seen by one sequential sync pass: `resolve` canonicalizes
paths (`path.resolve`), `files` is the snapshot of regular files keyed by
resolved path, `hashFn` abstracts the sha-256 content hash, and
`mkdirResult`/`writeResult` inject outcomes for destination directory creation
and destination writes (keyed by destination path). -/
structure World where
  resolve : String → String
  files : String → Option FileState
  hashFn : String → String
  mkdirResult : String → Except String Unit
  writeResult : String → Except String Unit

/-- `getFileChangeInfo`: stat plus full-content hash of a (resolved) path.  A
path with no regular file behind it fails as `fs.promises.stat` does; the
snapshot holds only regular files, so the is-file check collapses into the
lookup. -/
def worldInfo (w : World) (p : String) : Except String FileChangeInfo :=
  match w.files p with
  | none => .error ("ENOENT: no such file or directory, stat " ++ p)
  | some st =>
    .ok { path := p, lastModified := st.mtimeMs, size := st.content.length,
          hash := w.hashFn st.content }

/-- The FileChangeTracker's map from resolved path to stored fingerprint,
as an insertion-ordered association list (like a JS `Map`). -/
abbrev TrackerState := List (String × FileChangeInfo)

/-- `Map.get`: the value stored at the key (keys are unique, so the first
match is the only one). -/
def trackerGet : TrackerState → String → Option FileChangeInfo
  | [], _ => none
  | e :: rest, k => if e.1 == k then some e.2 else trackerGet rest k

/-- `Map.set`: overwrite in place, or append a new entry. -/
def trackerSet (st : TrackerState) (k : String) (v : FileChangeInfo) : TrackerState :=
  if st.any (fun e => e.1 == k) then st.map (fun e => if e.1 == k then (k, v) else e)
  else st ++ [(k, v)]

/-- `FileChangeTracker.track`, over an arbitrary path resolver and fingerprint
reader (the engine instantiates them from a `World`): store the fresh
fingerprint keyed by the resolved path, or fail with the wrapped error. -/
def track (resolve : String → String)
    (info : String → Except String FileChangeInfo)
    (st : TrackerState) (filePath : String) : Except String TrackerState :=
  match info (resolve filePath) with
  | .ok i => .ok (trackerSet st (resolve filePath) i)
  | .error e => .error ("Failed to track file " ++ filePath ++ ": " ++ e)

/-- `FileChangeTracker.hasChanged`: `true` for a never-tracked path; otherwise
recompute the fingerprint and compare all three fields, with any read error
reported as changed. -/
def hasChanged (resolve : String → String)
    (info : String → Except String FileChangeInfo)
    (st : TrackerState) (filePath : String) : Bool :=
  match trackerGet st (resolve filePath) with
  | none => true
  | some prev =>
    match info (resolve filePath) with
    | .error _ => true
    | .ok cur =>
      cur.hash != prev.hash || cur.lastModified != prev.lastModified ||
        cur.size != prev.size

/-- A target handler, as the per-pair sync pipeline uses it.  `transformStep`
is the transform exactly as invoked from `BaseTargetHandler.sync`, namely
`this.transform(content, target)` — without a source argument. -/
structure Handler where
  canHandle : String → Bool
  getTargetPath : TargetConfig → String → Except String String
  transformStep : String → TargetConfig → String
  validateSpecific : TargetConfig → Bool

/-- `BaseTargetHandler.validate`: name, type and path must be truthy, the
handler must claim the type, then handler-specific validation runs. -/
def baseValidate (h : Handler) (t : TargetConfig) : Bool :=
  (t.name != "" && t.type != "" && t.path.getD "" != "") && h.canHandle t.type &&
    h.validateSpecific t

/-- The universal handler as registered by the dispatcher. -/
def universalHandler : Handler where
  canHandle := universalCanHandle
  getTargetPath := universalGetTargetPath
  transformStep := fun content t => universalTransform content t none
  validateSpecific := universalValidateSpecific

/-- The try-block of `BaseTargetHandler.sync`: validate, check the source
exists, read it, transform, resolve the destination, create the destination
directory, write.  The value carries the destination path together with the
content actually written (the path alone is what feeds `files`). -/
def handlerSyncBody (h : Handler) (w : World) (source : String)
    (t : TargetConfig) : Except String (String × String) :=
  if !baseValidate h t then .error ("Invalid target configuration for " ++ t.name)
  else
    match w.files (w.resolve source) with
    | none => .error ("Source file does not exist: " ++ source)
    | some fileSt =>
      let transformed := h.transformStep fileSt.content t
      match h.getTargetPath t source with
      | .error e => .error e
      | .ok targetPath =>
        match w.mkdirResult (dirname targetPath) with
        | .error e => .error e
        | .ok _ =>
          match w.writeResult targetPath with
          | .error e => .error e
          | .ok _ => .ok (targetPath, transformed)

/-- `BaseTargetHandler.sync`: the catch-wrapper that converts every failure of
the body into a failed `SyncResult` carrying the error message. -/
def handlerSync (h : Handler) (w : World) (source : String) (t : TargetConfig) :
    SyncResult :=
  match handlerSyncBody h w source t with
  | .ok r =>
    { success := true, message := "Successfully synced " ++ source ++ " to " ++ t.name,
      files := [r.1], errors := [] }
  | .error e =>
    { success := false,
      message := "Failed to sync " ++ source ++ " to " ++ t.name ++ ": " ++ e,
      files := [], errors := [e] }

/-- The TargetManager's handler map (insertion-ordered, keyed by type). -/
abbrev Registry := List (String × Handler)

/-- `TargetManager.getHandler`. -/
def regGet (reg : Registry) (type : String) : Option Handler :=
  (reg.find? (fun e => e.1 == type)).map (fun e => e.2)

/-- `TargetManager.sync`: dispatch to the handler registered for the target's
type, or a failed result when none is; the catch around `handler.sync` can
never fire because `handlerSync` already converts every failure. -/
def tmSync (reg : Registry) (w : World) (source : String) (t : TargetConfig) :
    SyncResult :=
  match regGet reg t.type with
  | none =>
    { success := false, message := "No handler registered for AI tool type: " ++ t.type,
      files := [], errors := ["Unsupported target type: " ++ t.type] }
  | some h => handlerSync h w source t

/-- `TargetManager.validateTargets`: the pre-flight batch gate, aggregating
missing-handler and failed-validation errors across all targets. -/
def tmValidateTargets (reg : Registry) (targets : List TargetConfig) :
    Bool × List String :=
  let errs := targets.foldl (fun acc t =>
    match regGet reg t.type with
    | none =>
      acc ++ ["No handler registered for target type: " ++ t.type ++ " (" ++ t.name ++ ")"]
    | some h =>
      if !baseValidate h t then acc ++ ["Invalid configuration for target: " ++ t.name]
      else acc) []
  (errs.isEmpty, errs)

/-- The values of the `AIToolType` enum, in declaration order.  The enum
declaration itself is not in the snapshot; its values are fixed by their uses
in `SyncManager.getTargetDirectoryPath` and `types/config.ts`. -/
def allAIToolTypes : List String :=
  ["kiro", "cursor", "vscode", "claudecode", "gemini-cli", "custom"]

/-- `TargetManager.getSupportedTypes(handler)`: every enum type the handler
answers `canHandle` for. -/
def getSupportedTypes (canHandle : String → Bool) : List String :=
  allAIToolTypes.filter canHandle

/-- `TargetManager.register`, at the level of the map's key set (the stored
handler values are not consulted by registration): walk the handler's
supported types in order, throwing as soon as one is already registered. -/
def registerKeys (registered : List String) (canHandle : String → Bool) :
    Except String (List String) :=
  (getSupportedTypes canHandle).foldlM (fun acc ty =>
    if acc.contains ty then .error ("Handler for " ++ ty ++ " is already registered")
    else .ok (acc ++ [ty])) registered

/-- `Syncer.registerHandlers`: the five built-in handlers registered in order
into the (process-wide singleton) TargetManager, starting from its current
key set. -/
def syncerRegisterHandlers (registered : List String) :
    Except String (List String) := do
  let r1 ← registerKeys registered kiroCanHandle
  let r2 ← registerKeys r1 cursorCanHandle
  let r3 ← registerKeys r2 claudeCodeCanHandle
  let r4 ← registerKeys r3 geminiCLICanHandle
  registerKeys r4 vscodeCanHandle

/-- An observable filesystem action of the engine: the cleanup of one target's
destination directory, or the dispatch of one (source, target) pair to the
Target Dispatcher (the only place writes can happen). -/
inductive FsEvent where
  | cleanup (targetName : String)
  | dispatchPair (source : String) (targetName : String)
deriving DecidableEq, Repr

/-- Accumulated output of an engine fan-out loop. -/
structure LoopOut where
  files : List String
  errs : List String
  events : List FsEvent
  tracker : TrackerState
deriving DecidableEq, Repr

/-- `fs.pathExists(source)` / the handler's `fileExists`, on the snapshot. -/
def sourceExists (w : World) (s : String) : Bool :=
  (w.files (w.resolve s)).isSome

/-- The inner target loop of `SyncManager.fullSync` for one source: skip
targets with `enabled === false`, dispatch the rest, pushing files of
successful pairs and errors of failed ones, never stopping early. -/
def fullPairLoop (reg : Registry) (w : World) (s : String) :
    List TargetConfig → List String × List String × List FsEvent
  | [] => ([], [], [])
  | t :: ts =>
    let rest := fullPairLoop reg w s ts
    if t.enabled == some false then rest
    else
      let r := tmSync reg w s t
      if r.success then (r.files ++ rest.1, rest.2.1, .dispatchPair s t.name :: rest.2.2)
      else (rest.1, r.errors ++ rest.2.1, .dispatchPair s t.name :: rest.2.2)

/-- The outer source loop of `SyncManager.fullSync`: a missing source records
its error and the pass continues with the next source. -/
def fullSourceLoop (reg : Registry) (w : World) (targets : List TargetConfig) :
    List String → List String × List String × List FsEvent
  | [] => ([], [], [])
  | s :: ss =>
    let rest := fullSourceLoop reg w targets ss
    if sourceExists w s then
      let pr := fullPairLoop reg w s targets
      (pr.1 ++ rest.1, pr.2.1 ++ rest.2.1, pr.2.2 ++ rest.2.2)
    else
      (rest.1, ("Source file not found: " ++ s) :: rest.2.1, rest.2.2)

/-- `SyncManager.cleanTargetDirectories`: one cleanup action per enabled target
whose type has a registered handler (the event stands for the best-effort
deletion pass over that target's destination directory). -/
def cleanupEvents (reg : Registry) (targets : List TargetConfig) : List FsEvent :=
  (targets.filter (fun t => t.enabled != some false && (regGet reg t.type).isSome)).map
    (fun t => .cleanup t.name)

/-- `SyncManager.fullSync`: validation gate, then cleanup, then the fan-out;
overall success is "no error was recorded". -/
def fullSync (reg : Registry) (w : World) (cfg : SyncConfig) :
    SyncResult × List FsEvent :=
  let v := tmValidateTargets reg cfg.targets
  if !v.1 then
    ({ success := false,
       message := "Invalid target configuration: " ++ String.intercalate ", " v.2,
       files := [], errors := v.2 }, [])
  else
    let res := fullSourceLoop reg w cfg.targets cfg.sources
    ({ success := res.2.1.isEmpty,
       message := "Full sync completed: " ++ toString res.1.length ++ " files processed",
       files := res.1, errors := res.2.1 },
     cleanupEvents reg cfg.targets ++ res.2.2)

/-- `SyncManager.getChangedSourceFiles`: a source is in the changed set when it
exists and the tracker reports it changed, or when it does not exist at all
(deletion counts as a change). -/
def getChangedSourceFiles (w : World) (st : TrackerState) (sources : List String) :
    List String :=
  sources.filter (fun s =>
    if sourceExists w s then hasChanged w.resolve (worldInfo w) st s else true)

/-- The inner target loop of `SyncManager.incrementalSync` for one changed
source: after each successful pair the tracker baseline for that source is
refreshed (`updateTracking`, which re-runs `track`); a tracking failure is
caught by the surrounding per-pair catch and recorded as an error. -/
def incPairLoop (reg : Registry) (w : World) (s : String) :
    List TargetConfig → TrackerState → LoopOut
  | [], st => ⟨[], [], [], st⟩
  | t :: ts, st =>
    if t.enabled == some false then incPairLoop reg w s ts st
    else
      let r := tmSync reg w s t
      if r.success then
        match track w.resolve (worldInfo w) st s with
        | .ok st1 =>
          let rest := incPairLoop reg w s ts st1
          ⟨r.files ++ rest.files, rest.errs, .dispatchPair s t.name :: rest.events,
           rest.tracker⟩
        | .error e =>
          let rest := incPairLoop reg w s ts st
          ⟨r.files ++ rest.files,
           ("Failed to sync " ++ s ++ " to " ++ t.name ++ ": " ++ e) :: rest.errs,
           .dispatchPair s t.name :: rest.events, rest.tracker⟩
      else
        let rest := incPairLoop reg w s ts st
        ⟨rest.files, r.errors ++ rest.errs, .dispatchPair s t.name :: rest.events,
         rest.tracker⟩

/-- The outer loop of `SyncManager.incrementalSync` over the changed sources,
threading the tracker state. -/
def incSourceLoop (reg : Registry) (w : World) (targets : List TargetConfig) :
    List String → TrackerState → LoopOut
  | [], st => ⟨[], [], [], st⟩
  | s :: ss, st =>
    let pr := incPairLoop reg w s targets st
    let rest := incSourceLoop reg w targets ss pr.tracker
    ⟨pr.files ++ rest.files, pr.errs ++ rest.errs, pr.events ++ rest.events,
     rest.tracker⟩

/-- `SyncManager.incrementalSync`: validation gate, changed-set computation,
the empty-set short-circuit, then the fan-out over changed sources. -/
def incrementalSync (reg : Registry) (w : World) (cfg : SyncConfig)
    (st : TrackerState) : SyncResult × List FsEvent × TrackerState :=
  let v := tmValidateTargets reg cfg.targets
  if !v.1 then
    ({ success := false,
       message := "Invalid target configuration: " ++ String.intercalate ", " v.2,
       files := [], errors := v.2 }, [], st)
  else
    let changed := getChangedSourceFiles w st cfg.sources
    if changed.isEmpty then
      ({ success := true, message := "No changes detected, sync skipped",
         files := [], errors := [] }, [], st)
    else
      let o := incSourceLoop reg w cfg.targets changed st
      ({ success := o.errs.isEmpty,
         message := "Incremental sync completed: " ++ toString changed.length ++
           " changed files, " ++ toString o.files.length ++ " files processed",
         files := o.files, errors := o.errs }, o.events, o.tracker)

/-- `SyncManager.sync`: mode dispatch; an unsupported mode is thrown inside the
try and converted to a failed result by the catch. -/
def managerSync (reg : Registry) (w : World) (cfg : SyncConfig)
    (st : TrackerState) : SyncResult × List FsEvent × TrackerState :=
  if cfg.mode == "full" then
    let r := fullSync reg w cfg
    (r.1, r.2, st)
  else if cfg.mode == "incremental" then incrementalSync reg w cfg st
  else
    ({ success := false, message := "Sync failed: Unsupported sync mode: " ++ cfg.mode,
       files := [], errors := ["Error: Unsupported sync mode: " ++ cfg.mode] }, [], st)

/-- The enabled targets of a fan-out, in declared order. -/
def enabledTargets (ts : List TargetConfig) : List TargetConfig :=
  ts.filter (fun t => !(t.enabled == some false))

/-- Is an `Except` value an error? -/
def isError {ε α : Type} : Except ε α → Bool
  | .error _ => true
  | .ok _ => false

/- Concrete instances used to evaluate the theorems on explicit inputs. -/

/-- A VSCode target whose single mapping does not match `notes.txt`. -/
def vsTargetC1 : TargetConfig :=
  { name := "vscode-target", type := "vscode", path := some ".vscode",
    mapping := some [{ source := "rules.md", destination := "r.md" }] }

/-- A universal-handler target whose single mapping does not match `notes.txt`. -/
def uTargetC1 : TargetConfig :=
  { name := "u", type := "anytool", path := some "p",
    mapping := some [{ source := "rules.md", destination := "out/r.md" }] }

/-- An `append` transform rule adding `" world"`. -/
def c2Rule : TransformRule := { type := "append", replacement := some " world" }

/-- A mapping for `a.md` carrying the `append` transform rule. -/
def c2Mapping : FileMapping :=
  { source := "a.md", destination := "out/a.md", transform := some [c2Rule] }

/-- A target whose mapping for `a.md` carries an `append` transform rule. -/
def c2Target : TargetConfig :=
  { name := "t2", type := "anytool", path := some "p", mapping := some [c2Mapping] }

/-- A world holding the single source file `a.md` with all destination effects
succeeding. -/
def c2World : World :=
  { resolve := id,
    files := fun p => if p == "a.md" then some { content := "hello", mtimeMs := 0 } else none,
    hashFn := id,
    mkdirResult := fun _ => .ok (),
    writeResult := fun _ => .ok () }

/-- The fingerprint of `a.md` as `c2World` reports it. -/
def c4Prev : FileChangeInfo :=
  { path := "a.md", lastModified := 0, size := 5, hash := "hello" }

/-- A fingerprint of `a.md` with a different hash. -/
def c4Cur : FileChangeInfo :=
  { path := "a.md", lastModified := 0, size := 5, hash := "world" }

/-- A tracker that has recorded `c4Prev` for `a.md`. -/
def c4State : TrackerState := [("a.md", c4Prev)]

/-- A fingerprint reader that always fails. -/
def c4InfoErr : String → Except String FileChangeInfo := fun _ => .error "boom"

/-- A fingerprint reader that reports `c4Cur` everywhere. -/
def c4InfoOk : String → Except String FileChangeInfo := fun _ => .ok c4Cur

/-- A registry holding the universal handler under the type `mytool`. -/
def c6Reg : Registry := [("mytool", universalHandler)]

/-- A valid target of type `mytool` mapping `a.md` to `out/a.md`. -/
def c6Target : TargetConfig :=
  { name := "t", type := "mytool", path := some "p",
    mapping := some [{ source := "a.md", destination := "out/a.md" }] }

/-- An incremental-mode configuration over the single source `a.md`. -/
def c6Cfg : SyncConfig :=
  { sources := ["a.md"], targets := [c6Target], mode := "incremental" }

/-- A tracker whose stored fingerprint for `a.md` agrees with `c2World`. -/
def c6Tracker : TrackerState := [("a.md", c4Prev)]

/-- A target of an unregistered type, for the validation gate. -/
def c8Target : TargetConfig := { name := "x", type := "footool" }

/-- A full-mode configuration whose target type has no handler. -/
def c8Cfg : SyncConfig := { sources := [], targets := [c8Target], mode := "full" }

/-- A target for `a.md` whose destination write will succeed. -/
def c10T1 : TargetConfig :=
  { name := "ok-target", type := "mytool", path := some "p",
    mapping := some [{ source := "a.md", destination := "out/a.md" }] }

/-- A target for `a.md` whose destination write will fail. -/
def c10T2 : TargetConfig :=
  { name := "bad-target", type := "mytool", path := some "p",
    mapping := some [{ source := "a.md", destination := "bad/a.md" }] }

/-- A world where writing under `bad/` fails and everything else succeeds. -/
def c10World : World :=
  { resolve := id,
    files := fun p => if p == "a.md" then some { content := "hello", mtimeMs := 0 } else none,
    hashFn := id,
    mkdirResult := fun _ => .ok (),
    writeResult := fun p =>
      if p == "bad/a.md" then .error "EACCES: permission denied, open bad/a.md"
      else .ok () }

/-- The incremental configuration for the two-target scenario. -/
def c10Cfg : SyncConfig :=
  { sources := ["a.md"], targets := [c10T1, c10T2], mode := "incremental" }

/-- An aggregation scenario: one source that syncs to one target and fails on
the other, plus one missing source. -/
def c7Cfg : SyncConfig :=
  { sources := ["a.md", "missing.md"], targets := [c10T1, c10T2], mode := "full" }

/- Shared lemmas about the tracker map. -/

/-- Overwriting an existing key makes the map report the new value. -/
theorem trackerGet_map_set (st : TrackerState) (k : String) (v : FileChangeInfo)
    (h : st.any (fun e => e.1 == k) = true) :
    trackerGet (st.map (fun e => if e.1 == k then (k, v) else e)) k = some v := by
  induction st with
  | nil => simp at h
  | cons a rest ih =>
    cases hk : (a.1 == k) with
    | true => simp [trackerGet, List.map_cons, hk]
    | false =>
      have hrest : rest.any (fun e => e.1 == k) = true := by
        rw [List.any_cons, hk] at h
        simpa using h
      simpa [trackerGet, List.map_cons, hk] using ih hrest

/-- Appending a fresh key makes the map report its value. -/
theorem trackerGet_append_new (st : TrackerState) (k : String) (v : FileChangeInfo)
    (h : st.any (fun e => e.1 == k) = false) :
    trackerGet (st ++ [(k, v)]) k = some v := by
  induction st with
  | nil => simp [trackerGet]
  | cons a rest ih =>
    rw [List.any_cons] at h
    cases hk : (a.1 == k) with
    | true => rw [hk] at h; simp at h
    | false =>
      have hrest : rest.any (fun e => e.1 == k) = false := by
        rw [hk] at h; simpa using h
      simpa [trackerGet, hk] using ih hrest

/-- `Map.set` followed by `Map.get` of the same key yields the set value. -/
theorem trackerGet_set (st : TrackerState) (k : String) (v : FileChangeInfo) :
    trackerGet (trackerSet st k v) k = some v := by
  unfold trackerSet
  cases hany : st.any (fun e => e.1 == k) with
  | true => simpa [hany] using trackerGet_map_set st k v hany
  | false => simpa [hany] using trackerGet_append_new st k v hany

/- Shared rewrite lemmas for the dispatcher. -/

/-- Dispatch with no registered handler for the target's type. -/
theorem tmSync_none (reg : Registry) (w : World) (s : String) (t : TargetConfig)
    (h : regGet reg t.type = none) :
    tmSync reg w s t =
      { success := false, message := "No handler registered for AI tool type: " ++ t.type,
        files := [], errors := ["Unsupported target type: " ++ t.type] } := by
  simp only [tmSync, h]

/-- Dispatch with a registered handler delegates to its sync. -/
theorem tmSync_some (reg : Registry) (w : World) (s : String) (t : TargetConfig)
    (hd : Handler) (h : regGet reg t.type = some hd) :
    tmSync reg w s t = handlerSync hd w s t := by
  simp only [tmSync, h]

/-- A successful body yields the success result with the one written path. -/
theorem handlerSync_ok (hd : Handler) (w : World) (s : String) (t : TargetConfig)
    (r : String × String) (h : handlerSyncBody hd w s t = .ok r) :
    handlerSync hd w s t =
      { success := true, message := "Successfully synced " ++ s ++ " to " ++ t.name,
        files := [r.1], errors := [] } := by
  simp only [handlerSync, h]

/-- A failed body yields the failure result carrying the error message. -/
theorem handlerSync_error (hd : Handler) (w : World) (s : String) (t : TargetConfig)
    (e : String) (h : handlerSyncBody hd w s t = .error e) :
    handlerSync hd w s t =
      { success := false,
        message := "Failed to sync " ++ s ++ " to " ++ t.name ++ ": " ++ e,
        files := [], errors := [e] } := by
  simp only [handlerSync, h]

/-- Every dispatcher result is one of three literal shapes: no handler,
success, or converted failure. -/
theorem tmSync_shape (reg : Registry) (w : World) (s : String) (t : TargetConfig) :
    (tmSync reg w s t =
      { success := false, message := "No handler registered for AI tool type: " ++ t.type,
        files := [], errors := ["Unsupported target type: " ++ t.type] }) ∨
    (∃ r, tmSync reg w s t =
      { success := true, message := "Successfully synced " ++ s ++ " to " ++ t.name,
        files := [r.1], errors := [] } ∧
      (∃ hd, regGet reg t.type = some hd ∧ handlerSyncBody hd w s t = .ok r)) ∨
    (∃ e, tmSync reg w s t =
      { success := false,
        message := "Failed to sync " ++ s ++ " to " ++ t.name ++ ": " ++ e,
        files := [], errors := [e] }) := by
  cases hreg : regGet reg t.type with
  | none => exact Or.inl (tmSync_none reg w s t hreg)
  | some hd =>
    cases hbody : handlerSyncBody hd w s t with
    | ok r =>
      exact Or.inr (Or.inl ⟨r, (tmSync_some reg w s t hd hreg).trans
        (handlerSync_ok hd w s t r hbody), ⟨hd, rfl, hbody⟩⟩)
    | error e =>
      exact Or.inr (Or.inr ⟨e, (tmSync_some reg w s t hd hreg).trans
        (handlerSync_error hd w s t e hbody)⟩)

/-- The error list of a dispatcher result is empty exactly when the pair
succeeded. -/
theorem tmSync_errors_nil_iff (reg : Registry) (w : World) (s : String)
    (t : TargetConfig) :
    ((tmSync reg w s t).errors = [] ↔ (tmSync reg w s t).success = true) := by
  rcases tmSync_shape reg w s t with h | ⟨r, h, _⟩ | ⟨e, h⟩ <;> (rw [h]; simp)

/-- A successful dispatch implies its error list is empty. -/
theorem tmSync_success_errors (reg : Registry) (w : World) (s : String)
    (t : TargetConfig) (h : (tmSync reg w s t).success = true) :
    (tmSync reg w s t).errors = [] :=
  (tmSync_errors_nil_iff reg w s t).mpr h

/-- A failed dispatch has an empty files list. -/
theorem tmSync_fail_files (reg : Registry) (w : World) (s : String)
    (t : TargetConfig) (h : (tmSync reg w s t).success = false) :
    (tmSync reg w s t).files = [] := by
  rcases tmSync_shape reg w s t with hs | ⟨r, hs, _⟩ | ⟨e, hs⟩
  · rw [hs]
  · rw [hs] at h; simp at h
  · rw [hs]

/-- A successful dispatch requires the source to exist in the snapshot. -/
theorem tmSync_success_sourceExists (reg : Registry) (w : World) (s : String)
    (t : TargetConfig) (h : (tmSync reg w s t).success = true) :
    sourceExists w s = true := by
  cases hreg : regGet reg t.type with
  | none => rw [tmSync_none reg w s t hreg] at h; simp at h
  | some hd =>
    rw [tmSync_some reg w s t hd hreg] at h
    cases hbody : handlerSyncBody hd w s t with
    | error e => rw [handlerSync_error hd w s t e hbody] at h; simp at h
    | ok r =>
      unfold handlerSyncBody at hbody
      by_cases hv : baseValidate hd t
      · rw [if_neg (by simp [hv])] at hbody
        unfold sourceExists
        cases hf : w.files (w.resolve s) with
        | none => rw [hf] at hbody; exact absurd hbody (by simp)
        | some fileSt => simp [hf]
      · rw [if_pos (by simp [hv])] at hbody
        exact absurd hbody (by simp)

/-- Pointwise-equal predicates give equal `any` results. -/
theorem listAny_congr {a : Type} (l : List a) (f g : a → Bool)
    (h : ∀ x ∈ l, f x = g x) : l.any f = l.any g := by
  induction l with
  | nil => rfl
  | cons x xs ih =>
    rw [List.any_cons, List.any_cons, h x (by simp),
      ih (fun u hu => h u (by simp [hu]))]

/- Claim C1. -/

/-- C1 counterexample: the VSCode handler serves the `vscode` type, none of the
target's mapping entries matches the source `notes.txt`, and yet
`getTargetPath` succeeds with the default destination `.vscode/notes.txt`
instead of failing with a configuration error — refuting the claim that every
handler kind fails when no mapping matches. -/
theorem c1_vscode_default_path_counterexample :
    vscodeCanHandle "vscode" = true ∧
    (vsTargetC1.mapping.getD []).all
      (fun m => !matchesSourcePattern "notes.txt" m.source) = true ∧
    vscodeGetTargetPath vsTargetC1 "notes.txt" = .ok ".vscode/notes.txt" := by
  refine ⟨rfl, by decide, rfl⟩

/-- C1 (amended): for the universal mapping-driven handler, whenever no mapping
entry of the target matches the source, `getTargetPath` fails with the
no-mapping configuration error and never returns a default path. -/
theorem c1_universal_no_mapping_is_config_error (target : TargetConfig) (source : String)
    (h : ∀ m ∈ target.mapping.getD [], matchesSourcePattern source m.source = false) :
    universalGetTargetPath target source =
      .error (noMappingMsg (basename source) target.name) := by
  unfold universalGetTargetPath
  have hfind : (target.mapping.getD []).find?
      (fun m => matchesSourcePattern source m.source) = none :=
    List.find?_eq_none.mpr (fun m hm => by simp [h m hm])
  rw [hfind]

/-- C1 witness: the amended theorem evaluated at a concrete target and source
with no matching mapping entry. -/
theorem c1_universal_no_mapping_is_config_error_witness :
    universalGetTargetPath uTargetC1 "notes.txt" =
      .error (noMappingMsg (basename "notes.txt") uTargetC1.name) :=
  c1_universal_no_mapping_is_config_error uTargetC1 "notes.txt" (by decide)

/- Claim C2. -/

/-- C2: evaluated at the failing input, the transform step as executed during
the per-pair sync (`this.transform(content, target)`, with no source argument)
returns the content unchanged and the pipeline writes the untransformed
content, although the mapping matching `a.md` declares an `append` rule whose
application (what the spec describes) yields `"hello world"`.  The dispatch
drops the source argument, so the mapping-match guard of
`UniversalHandler.transform` never fires during a sync. -/
theorem c2_sync_transform_step_drops_rules :
    universalHandler.transformStep "hello" c2Target = "hello" ∧
    universalTransform "hello" c2Target (some "a.md") = "hello world" ∧
    handlerSyncBody universalHandler c2World "a.md" c2Target =
      .ok ("out/a.md", "hello") := by
  refine ⟨rfl, by decide, rfl⟩

/- Claim C3. -/

/-- C3: the dispatcher call `TargetManager.sync` is total in the embedding (no
exception escapes it) and always yields a well-formed `SyncResult`: either the
pair succeeded with an empty error list, or it failed and the error list holds
exactly the failure message, which the result message also carries. -/
theorem c3_tm_sync_never_throws (reg : Registry) (w : World) (source : String)
    (t : TargetConfig) :
    ((tmSync reg w source t).success = true ∧ (tmSync reg w source t).errors = []) ∨
    ((tmSync reg w source t).success = false ∧
      ∃ e, (tmSync reg w source t).errors = [e] ∧
        ((tmSync reg w source t).message =
            "No handler registered for AI tool type: " ++ t.type ∨
          (tmSync reg w source t).message =
            "Failed to sync " ++ source ++ " to " ++ t.name ++ ": " ++ e)) := by
  rcases tmSync_shape reg w source t with h | ⟨r, h, _⟩ | ⟨e, h⟩
  · exact Or.inr ⟨by rw [h], "Unsupported target type: " ++ t.type, by rw [h],
      Or.inl (by rw [h])⟩
  · exact Or.inl ⟨by rw [h], by rw [h]⟩
  · exact Or.inr ⟨by rw [h], e, by rw [h], Or.inr (by rw [h])⟩

/- Claim C4. -/

/-- C4: `hasChanged` returns `true` for a never-tracked path; for a tracked
path it returns `true` when recomputation fails, and otherwise reports change
exactly when the hash, the modification time, or the size differs from the
stored fingerprint. -/
theorem c4_hasChanged_spec (resolve : String → String)
    (info : String → Except String FileChangeInfo) (st : TrackerState) (p : String) :
    (trackerGet st (resolve p) = none → hasChanged resolve info st p = true) ∧
    (∀ prev, trackerGet st (resolve p) = some prev →
      (∀ e, info (resolve p) = .error e → hasChanged resolve info st p = true) ∧
      (∀ cur, info (resolve p) = .ok cur →
        hasChanged resolve info st p =
          (cur.hash != prev.hash || cur.lastModified != prev.lastModified ||
            cur.size != prev.size))) := by
  refine ⟨fun h => by simp [hasChanged, h], fun prev hprev => ⟨?_, ?_⟩⟩
  · intro e he; simp [hasChanged, hprev, he]
  · intro cur hcur; simp [hasChanged, hprev, hcur]

/-- C4 witness: the theorem applied to an untracked path, to a tracked path
whose recomputation fails, and to a tracked path whose current hash differs. -/
theorem c4_hasChanged_spec_witness :
    hasChanged id c4InfoOk [] "a.md" = true ∧
    hasChanged id c4InfoErr c4State "a.md" = true ∧
    hasChanged id c4InfoOk c4State "a.md" = true := by
  refine ⟨(c4_hasChanged_spec id c4InfoOk [] "a.md").1 rfl,
    ((c4_hasChanged_spec id c4InfoErr c4State "a.md").2 c4Prev rfl).1 "boom" rfl, ?_⟩
  have h := ((c4_hasChanged_spec id c4InfoOk c4State "a.md").2 c4Prev rfl).2 c4Cur rfl
  rw [h]; decide

/- Claim C5. -/

/-- C5: immediately after a successful `track` of a path, with the file's
content and metadata unchanged between the two calls (the same fingerprint
reader), `hasChanged` reports `false`. -/
theorem c5_track_then_unchanged (resolve : String → String)
    (info : String → Except String FileChangeInfo) (st st1 : TrackerState)
    (p : String) (h : track resolve info st p = .ok st1) :
    hasChanged resolve info st1 p = false := by
  unfold track at h
  cases hinfo : info (resolve p) with
  | error e => rw [hinfo] at h; exact absurd h (by simp)
  | ok i =>
    rw [hinfo] at h
    cases h
    simp [hasChanged, trackerGet_set, hinfo]

/-- C5 witness: tracking `a.md` against a concrete fingerprint reader and then
querying `hasChanged` on the resulting state. -/
theorem c5_track_then_unchanged_witness :
    hasChanged id c4InfoOk (trackerSet [] "a.md" c4Cur) "a.md" = false :=
  c5_track_then_unchanged id c4InfoOk [] (trackerSet [] "a.md" c4Cur) "a.md" rfl

/- Claim C6. -/

/-- C6: in incremental mode, once validation passes, an empty changed-source
set makes the engine return immediately with success, the "no changes"
message, and an empty files list, performing no filesystem action (no event)
and leaving the tracker untouched; the message contains "No changes
detected". -/
theorem c6_incremental_no_changes (reg : Registry) (w : World) (cfg : SyncConfig)
    (st : TrackerState) (hmode : cfg.mode = "incremental")
    (hvalid : (tmValidateTargets reg cfg.targets).1 = true)
    (hempty : getChangedSourceFiles w st cfg.sources = []) :
    managerSync reg w cfg st =
      ({ success := true, message := "No changes detected, sync skipped",
         files := [], errors := [] }, [], st) ∧
    (findAndDrop "No changes detected".data
      (managerSync reg w cfg st).1.message.data).isSome = true := by
  have h1 : managerSync reg w cfg st =
      ({ success := true, message := "No changes detected, sync skipped",
         files := [], errors := [] }, [], st) := by
    have hm : (cfg.mode == "full") = false := by
      rw [hmode]; decide
    have hm2 : (cfg.mode == "incremental") = true := by
      rw [hmode]; decide
    simp only [managerSync, hm, hm2, if_false, if_true]
    simp only [incrementalSync, hvalid, hempty]
    simp
  exact ⟨h1, by rw [h1]; rfl⟩

/-- C6 witness: a tracked and unchanged source under a valid target makes the
engine short-circuit. -/
theorem c6_incremental_no_changes_witness :
    (tmValidateTargets c6Reg c6Cfg.targets).1 = true ∧
    getChangedSourceFiles c2World c6Tracker c6Cfg.sources = [] ∧
    managerSync c6Reg c2World c6Cfg c6Tracker =
      ({ success := true, message := "No changes detected, sync skipped",
         files := [], errors := [] }, [], c6Tracker) := by
  have h := c6_incremental_no_changes c6Reg c2World c6Cfg c6Tracker rfl (by decide)
    (by decide)
  exact ⟨by decide, by decide, h.1⟩

/- Claim C8. -/

/-- C8: when the batch target validation fails, both engine modes return a
failed result carrying exactly the aggregated validation errors, perform no
filesystem action at all (no cleanup, no dispatch), and leave the tracker
untouched. -/
theorem c8_validation_failure_touches_nothing (reg : Registry) (w : World)
    (cfg : SyncConfig) (st : TrackerState)
    (hmode : cfg.mode = "full" ∨ cfg.mode = "incremental")
    (hinvalid : (tmValidateTargets reg cfg.targets).1 = false) :
    (managerSync reg w cfg st).1.success = false ∧
    (managerSync reg w cfg st).1.errors = (tmValidateTargets reg cfg.targets).2 ∧
    (managerSync reg w cfg st).2.1 = [] ∧
    (managerSync reg w cfg st).2.2 = st := by
  rcases hmode with hmode | hmode
  · have hm : (cfg.mode == "full") = true := by rw [hmode]; decide
    simp only [managerSync, hm, if_true]
    simp only [fullSync, hinvalid]
    simp
  · have hm : (cfg.mode == "full") = false := by rw [hmode]; decide
    have hm2 : (cfg.mode == "incremental") = true := by rw [hmode]; decide
    simp only [managerSync, hm, hm2, if_false, if_true]
    simp only [incrementalSync, hinvalid]
    simp

/-- C8 witness: a full-mode configuration whose single target has no registered
handler.  The empty registry rejects it and nothing is touched. -/
theorem c8_validation_failure_touches_nothing_witness :
    (tmValidateTargets [] c8Cfg.targets).1 = false ∧
    (managerSync [] c2World c8Cfg []).1.success = false ∧
    (managerSync [] c2World c8Cfg []).1.errors =
      ["No handler registered for target type: footool (x)"] ∧
    (managerSync [] c2World c8Cfg []).2.1 = [] ∧
    (managerSync [] c2World c8Cfg []).2.2 = [] := by
  have h := c8_validation_failure_touches_nothing [] c2World c8Cfg []
    (Or.inl rfl) (by decide)
  exact ⟨by decide, h.1, h.2.1.trans (by decide), h.2.2.1, h.2.2.2⟩

/- Claim C9. -/

/-- C9: registering a handler throws "Handler for (type) is already registered"
exactly when some type the handler supports is already a key of the (singleton)
TargetManager's map; the Syncer constructor registers the five built-in
handlers, so a first construction populates the keys and a second construction
throws on its very first registration, for the Kiro type. -/
theorem c9_second_syncer_registration_throws :
    (∀ (registered : List String) (canHandle : String → Bool),
      isError (registerKeys registered canHandle) =
        (getSupportedTypes canHandle).any (fun ty => registered.contains ty)) ∧
    syncerRegisterHandlers [] =
      .ok ["kiro", "cursor", "claudecode", "gemini-cli", "vscode"] ∧
    syncerRegisterHandlers ["kiro", "cursor", "claudecode", "gemini-cli", "vscode"] =
      .error "Handler for kiro is already registered" := by
  refine ⟨?_, rfl, rfl⟩
  intro registered canHandle
  have hnd : (getSupportedTypes canHandle).Nodup :=
    List.Nodup.filter _ (by decide : allAIToolTypes.Nodup)
  unfold registerKeys
  generalize (getSupportedTypes canHandle) = tys at hnd
  induction tys generalizing registered with
  | nil => rfl
  | cons ty rest ih =>
    rcases List.nodup_cons.mp hnd with ⟨hnotin, hndrest⟩
    rw [List.foldlM_cons, List.any_cons]
    cases hmem : registered.contains ty with
    | true => rfl
    | false =>
      -- the grown accumulator agrees with the original keys on every
      -- remaining type, because the supported types are distinct
      have hagree : ∀ ty2 ∈ rest,
          ((registered ++ [ty]).contains ty2) = registered.contains ty2 := by
        intro ty2 hty2
        have hne : ty2 ≠ ty := fun hEq => hnotin (hEq ▸ hty2)
        simp [List.mem_append, hne]
      calc isError ((if false = true then
                Except.error ("Handler for " ++ ty ++ " is already registered")
              else Except.ok (registered ++ [ty])) >>= fun acc =>
              List.foldlM (fun acc ty =>
                if acc.contains ty = true then
                  Except.error ("Handler for " ++ ty ++ " is already registered")
                else Except.ok (acc ++ [ty])) acc rest)
          = isError (List.foldlM (fun acc ty =>
              if acc.contains ty = true then
                Except.error ("Handler for " ++ ty ++ " is already registered")
              else Except.ok (acc ++ [ty])) (registered ++ [ty]) rest) := rfl
        _ = rest.any (fun ty2 => (registered ++ [ty]).contains ty2) :=
            ih (registered ++ [ty]) hndrest
        _ = rest.any (fun ty2 => registered.contains ty2) :=
            listAny_congr rest _ _ hagree
        _ = (false || rest.any (fun ty2 => registered.contains ty2)) := by
            rw [Bool.false_or]

/- Shared lemmas for the engine fan-out loops. -/

/-- An appended list is empty exactly when both halves are. -/
theorem listIsEmpty_append {a : Type} (l1 l2 : List a) :
    (l1 ++ l2).isEmpty = (l1.isEmpty && l2.isEmpty) := by
  cases l1 <;> rfl

/-- A dispatcher result's error list is empty exactly when it succeeded, as a
boolean equation. -/
theorem tmSync_errors_isEmpty (reg : Registry) (w : World) (s : String)
    (t : TargetConfig) :
    (tmSync reg w s t).errors.isEmpty = (tmSync reg w s t).success := by
  cases hsucc : (tmSync reg w s t).success with
  | true => rw [tmSync_success_errors reg w s t hsucc]; rfl
  | false =>
    rcases tmSync_shape reg w s t with hs | ⟨r, hs, _⟩ | ⟨e, hs⟩
    · rw [hs]; rfl
    · rw [hs] at hsucc; simp at hsucc
    · rw [hs]; rfl

/-- A failed dispatch carries exactly one error message. -/
theorem tmSync_fail_errors (reg : Registry) (w : World) (s : String)
    (t : TargetConfig) (h : (tmSync reg w s t).success = false) :
    ∃ e, (tmSync reg w s t).errors = [e] := by
  rcases tmSync_shape reg w s t with hs | ⟨r, hs, _⟩ | ⟨e, hs⟩
  · rw [hs]; exact ⟨_, rfl⟩
  · rw [hs] at h; simp at h
  · rw [hs]; exact ⟨e, rfl⟩

/-- An existing source has a readable fingerprint in the snapshot. -/
theorem worldInfo_ok_of_exists (w : World) (s : String)
    (hex : sourceExists w s = true) :
    ∃ i, worldInfo w (w.resolve s) = .ok i := by
  unfold sourceExists at hex
  cases hf : w.files (w.resolve s) with
  | none => rw [hf] at hex; simp at hex
  | some fst =>
    exact ⟨{ path := w.resolve s, lastModified := fst.mtimeMs,
             size := fst.content.length, hash := w.hashFn fst.content },
           by simp [worldInfo, hf]⟩

/-- `track` succeeds whenever the fingerprint read does, storing the fresh
fingerprint under the resolved path. -/
theorem track_ok_of_info (resolve : String → String)
    (info : String → Except String FileChangeInfo) (st : TrackerState)
    (p : String) (i : FileChangeInfo) (hi : info (resolve p) = .ok i) :
    track resolve info st p = .ok (trackerSet st (resolve p) i) := by
  unfold track; rw [hi]

/-- After storing the currently-read fingerprint, the path reports unchanged. -/
theorem hasChanged_trackerSet (resolve : String → String)
    (info : String → Except String FileChangeInfo) (st : TrackerState)
    (p : String) (i : FileChangeInfo) (hi : info (resolve p) = .ok i) :
    hasChanged resolve info (trackerSet st (resolve p) i) p = false := by
  simp [hasChanged, trackerGet_set, hi]

/-- The full-mode inner loop concatenates, over the enabled targets in order,
the files of successful pairs and the errors of failed ones. -/
theorem fullPairLoop_spec (reg : Registry) (w : World) (s : String)
    (ts : List TargetConfig) :
    (fullPairLoop reg w s ts).1 =
      ((enabledTargets ts).map (fun t => (tmSync reg w s t).files)).flatten ∧
    (fullPairLoop reg w s ts).2.1 =
      ((enabledTargets ts).map (fun t => (tmSync reg w s t).errors)).flatten := by
  induction ts with
  | nil => exact ⟨rfl, rfl⟩
  | cons t ts ih =>
    cases hen : (t.enabled == some false) with
    | true =>
      refine ⟨?_, ?_⟩ <;>
        simp [fullPairLoop, enabledTargets, List.filter_cons, hen, ih.1, ih.2]
    | false =>
      cases hsucc : (tmSync reg w s t).success with
      | true =>
        have herr := tmSync_success_errors reg w s t hsucc
        refine ⟨?_, ?_⟩ <;>
          simp [fullPairLoop, enabledTargets, List.filter_cons, hen, hsucc, herr,
            ih.1, ih.2]
      | false =>
        have hf := tmSync_fail_files reg w s t hsucc
        refine ⟨?_, ?_⟩ <;>
          simp [fullPairLoop, enabledTargets, List.filter_cons, hen, hsucc, hf,
            ih.1, ih.2]

/-- The full-mode outer loop concatenates per-source contributions in declared
order; a missing source contributes its not-found error and nothing stops. -/
theorem fullSourceLoop_spec (reg : Registry) (w : World) (ts : List TargetConfig)
    (sources : List String) :
    (fullSourceLoop reg w ts sources).1 =
      (sources.map (fun s => if sourceExists w s then
        ((enabledTargets ts).map (fun t => (tmSync reg w s t).files)).flatten
        else [])).flatten ∧
    (fullSourceLoop reg w ts sources).2.1 =
      (sources.map (fun s => if sourceExists w s then
        ((enabledTargets ts).map (fun t => (tmSync reg w s t).errors)).flatten
        else ["Source file not found: " ++ s])).flatten := by
  induction sources with
  | nil => exact ⟨rfl, rfl⟩
  | cons s ss ih =>
    cases hex : sourceExists w s with
    | true =>
      refine ⟨?_, ?_⟩ <;>
        simp [fullSourceLoop, hex, (fullPairLoop_spec reg w s ts).1,
          (fullPairLoop_spec reg w s ts).2, ih.1, ih.2]
    | false =>
      refine ⟨?_, ?_⟩ <;> simp [fullSourceLoop, hex, ih.1, ih.2]

/-- The concatenated per-target errors of one source are empty exactly when
every enabled pair succeeded. -/
theorem errsJoin_eq_allSucc (reg : Registry) (w : World) (s : String)
    (l : List TargetConfig) :
    ((l.map (fun t => (tmSync reg w s t).errors)).flatten).isEmpty =
      l.all (fun t => (tmSync reg w s t).success) := by
  induction l with
  | nil => rfl
  | cons t l ih =>
    rw [List.map_cons, List.flatten_cons, listIsEmpty_append, ih, List.all_cons,
      tmSync_errors_isEmpty]

/-- The full-mode error concatenation is empty exactly when every source exists
and every enabled pair succeeded. -/
theorem fullErrors_isEmpty (reg : Registry) (w : World) (ts : List TargetConfig)
    (sources : List String) :
    ((sources.map (fun s => if sourceExists w s then
        ((enabledTargets ts).map (fun t => (tmSync reg w s t).errors)).flatten
        else ["Source file not found: " ++ s])).flatten).isEmpty =
      sources.all (fun s => sourceExists w s &&
        (enabledTargets ts).all (fun t => (tmSync reg w s t).success)) := by
  induction sources with
  | nil => rfl
  | cons s ss ih =>
    rw [List.map_cons, List.flatten_cons, listIsEmpty_append, ih, List.all_cons]
    cases hex : sourceExists w s with
    | true => rw [if_pos rfl]; rw [errsJoin_eq_allSucc, Bool.true_and]
    | false => rfl

/-- The incremental-mode inner loop concatenates the same per-pair files and
errors as the full-mode one: the tracking update after a successful pair always
succeeds (a successful pair implies the source exists in the snapshot), so the
caught-tracking-failure branch contributes nothing. -/
theorem incPairLoop_spec (reg : Registry) (w : World) (s : String)
    (ts : List TargetConfig) : ∀ (st : TrackerState),
    (incPairLoop reg w s ts st).files =
      ((enabledTargets ts).map (fun t => (tmSync reg w s t).files)).flatten ∧
    (incPairLoop reg w s ts st).errs =
      ((enabledTargets ts).map (fun t => (tmSync reg w s t).errors)).flatten := by
  induction ts with
  | nil => intro st; exact ⟨rfl, rfl⟩
  | cons t ts ih =>
    intro st
    cases hen : (t.enabled == some false) with
    | true =>
      refine ⟨?_, ?_⟩ <;>
        simp [incPairLoop, enabledTargets, List.filter_cons, hen, (ih st).1, (ih st).2]
    | false =>
      cases hsucc : (tmSync reg w s t).success with
      | true =>
        obtain ⟨i, hi⟩ := worldInfo_ok_of_exists w s
          (tmSync_success_sourceExists reg w s t hsucc)
        have htr := track_ok_of_info w.resolve (worldInfo w) st s i hi
        have herr := tmSync_success_errors reg w s t hsucc
        refine ⟨?_, ?_⟩ <;>
          simp [incPairLoop, enabledTargets, List.filter_cons, hen, hsucc, htr, herr,
            (ih (trackerSet st (w.resolve s) i)).1, (ih (trackerSet st (w.resolve s) i)).2]
      | false =>
        have hf := tmSync_fail_files reg w s t hsucc
        refine ⟨?_, ?_⟩ <;>
          simp [incPairLoop, enabledTargets, List.filter_cons, hen, hsucc, hf,
            (ih st).1, (ih st).2]

/-- The incremental-mode outer loop concatenates per-source contributions in
order, independently of the threaded tracker state. -/
theorem incSourceLoop_spec (reg : Registry) (w : World) (ts : List TargetConfig)
    (sources : List String) : ∀ (st : TrackerState),
    (incSourceLoop reg w ts sources st).files =
      (sources.map (fun s =>
        ((enabledTargets ts).map (fun t => (tmSync reg w s t).files)).flatten)).flatten ∧
    (incSourceLoop reg w ts sources st).errs =
      (sources.map (fun s =>
        ((enabledTargets ts).map (fun t => (tmSync reg w s t).errors)).flatten)).flatten := by
  induction sources with
  | nil => intro st; exact ⟨rfl, rfl⟩
  | cons s ss ih =>
    intro st
    refine ⟨?_, ?_⟩ <;>
      simp [incSourceLoop, (incPairLoop_spec reg w s ts st).1,
        (incPairLoop_spec reg w s ts st).2,
        (ih (incPairLoop reg w s ts st).tracker).1,
        (ih (incPairLoop reg w s ts st).tracker).2]

/-- The incremental-mode error concatenation is empty exactly when every
enabled pair of every changed source succeeded. -/
theorem incErrors_isEmpty (reg : Registry) (w : World) (ts : List TargetConfig)
    (sources : List String) :
    ((sources.map (fun s =>
        ((enabledTargets ts).map (fun t => (tmSync reg w s t).errors)).flatten)).flatten).isEmpty =
      sources.all (fun s => (enabledTargets ts).all (fun t => (tmSync reg w s t).success)) := by
  induction sources with
  | nil => rfl
  | cons s ss ih =>
    rw [List.map_cons, List.flatten_cons, listIsEmpty_append, ih, List.all_cons,
      errsJoin_eq_allSucc]

/- Claim C7. -/

/-- C7: once validation passes, in both modes the overall success is the
conjunction of every per-pair success over the fan-out (sources × enabled
targets in full mode, with a missing source failing; changed sources × enabled
targets in incremental mode), and the files and errors lists are the
concatenations of every pair's written paths and error messages in iteration
order — no failing pair stops the processing of the remaining pairs. -/
theorem c7_aggregation (reg : Registry) (w : World) (cfg : SyncConfig)
    (st : TrackerState) (hvalid : (tmValidateTargets reg cfg.targets).1 = true) :
    ((fullSync reg w cfg).1.success =
        cfg.sources.all (fun s => sourceExists w s &&
          (enabledTargets cfg.targets).all (fun t => (tmSync reg w s t).success)) ∧
      (fullSync reg w cfg).1.files =
        (cfg.sources.map (fun s => if sourceExists w s then
          ((enabledTargets cfg.targets).map (fun t => (tmSync reg w s t).files)).flatten
          else [])).flatten ∧
      (fullSync reg w cfg).1.errors =
        (cfg.sources.map (fun s => if sourceExists w s then
          ((enabledTargets cfg.targets).map (fun t => (tmSync reg w s t).errors)).flatten
          else ["Source file not found: " ++ s])).flatten) ∧
    ((incrementalSync reg w cfg st).1.success =
        (getChangedSourceFiles w st cfg.sources).all (fun s =>
          (enabledTargets cfg.targets).all (fun t => (tmSync reg w s t).success)) ∧
      (incrementalSync reg w cfg st).1.files =
        ((getChangedSourceFiles w st cfg.sources).map (fun s =>
          ((enabledTargets cfg.targets).map (fun t => (tmSync reg w s t).files)).flatten)).flatten ∧
      (incrementalSync reg w cfg st).1.errors =
        ((getChangedSourceFiles w st cfg.sources).map (fun s =>
          ((enabledTargets cfg.targets).map (fun t => (tmSync reg w s t).errors)).flatten)).flatten) := by
  constructor
  · have hfull : fullSync reg w cfg =
        ({ success := (fullSourceLoop reg w cfg.targets cfg.sources).2.1.isEmpty,
           message := "Full sync completed: " ++
             toString (fullSourceLoop reg w cfg.targets cfg.sources).1.length ++
             " files processed",
           files := (fullSourceLoop reg w cfg.targets cfg.sources).1,
           errors := (fullSourceLoop reg w cfg.targets cfg.sources).2.1 },
         cleanupEvents reg cfg.targets ++ (fullSourceLoop reg w cfg.targets cfg.sources).2.2) := by
      simp [fullSync, hvalid]
    rw [hfull]
    refine ⟨?_, (fullSourceLoop_spec reg w cfg.targets cfg.sources).1,
      (fullSourceLoop_spec reg w cfg.targets cfg.sources).2⟩
    show (fullSourceLoop reg w cfg.targets cfg.sources).2.1.isEmpty = _
    rw [(fullSourceLoop_spec reg w cfg.targets cfg.sources).2]
    exact fullErrors_isEmpty reg w cfg.targets cfg.sources
  · cases hch : (getChangedSourceFiles w st cfg.sources).isEmpty with
    | true =>
      have hnil : getChangedSourceFiles w st cfg.sources = [] := by
        cases hcc : getChangedSourceFiles w st cfg.sources with
        | nil => rfl
        | cons a l => rw [hcc] at hch; simp at hch
      have hinc : incrementalSync reg w cfg st =
          ({ success := true, message := "No changes detected, sync skipped",
             files := [], errors := [] }, [], st) := by
        simp [incrementalSync, hvalid, hnil]
      rw [hinc, hnil]
      exact ⟨rfl, rfl, rfl⟩
    | false =>
      have hinc : incrementalSync reg w cfg st =
          ({ success := (incSourceLoop reg w cfg.targets
               (getChangedSourceFiles w st cfg.sources) st).errs.isEmpty,
             message := "Incremental sync completed: " ++
               toString (getChangedSourceFiles w st cfg.sources).length ++
               " changed files, " ++
               toString (incSourceLoop reg w cfg.targets
                 (getChangedSourceFiles w st cfg.sources) st).files.length ++
               " files processed",
             files := (incSourceLoop reg w cfg.targets
               (getChangedSourceFiles w st cfg.sources) st).files,
             errors := (incSourceLoop reg w cfg.targets
               (getChangedSourceFiles w st cfg.sources) st).errs },
           (incSourceLoop reg w cfg.targets
             (getChangedSourceFiles w st cfg.sources) st).events,
           (incSourceLoop reg w cfg.targets
             (getChangedSourceFiles w st cfg.sources) st).tracker) := by
        simp [incrementalSync, hvalid, hch]
      rw [hinc]
      refine ⟨?_,
        (incSourceLoop_spec reg w cfg.targets (getChangedSourceFiles w st cfg.sources) st).1,
        (incSourceLoop_spec reg w cfg.targets (getChangedSourceFiles w st cfg.sources) st).2⟩
      show (incSourceLoop reg w cfg.targets
          (getChangedSourceFiles w st cfg.sources) st).errs.isEmpty = _
      rw [(incSourceLoop_spec reg w cfg.targets (getChangedSourceFiles w st cfg.sources) st).2]
      exact incErrors_isEmpty reg w cfg.targets (getChangedSourceFiles w st cfg.sources)

/-- C7 witness: the aggregation theorem evaluated on a two-source, two-target
scenario with one failing pair and one missing source, in both modes. -/
theorem c7_aggregation_witness :
    (tmValidateTargets c6Reg c7Cfg.targets).1 = true ∧
    (fullSync c6Reg c10World c7Cfg).1.success = false ∧
    (fullSync c6Reg c10World c7Cfg).1.files = ["out/a.md"] ∧
    (fullSync c6Reg c10World c7Cfg).1.errors =
      ["EACCES: permission denied, open bad/a.md",
       "Source file not found: missing.md"] ∧
    (incrementalSync c6Reg c10World c7Cfg []).1.success = false ∧
    (incrementalSync c6Reg c10World c7Cfg []).1.files = ["out/a.md"] := by
  have h := c7_aggregation c6Reg c10World c7Cfg [] (by decide)
  exact ⟨by decide, h.1.1.trans (by decide), h.1.2.1.trans (by decide),
    h.1.2.2.trans (by decide), h.2.1.trans (by decide), h.2.2.1.trans (by decide)⟩

/- Claim C10. -/

/-- C10: during an incremental run over one changed source and two enabled
targets, where the first pair succeeds and the second fails, the run reports
failure, but the source's tracking baseline was already refreshed after the
first successful pair; the source therefore reports unchanged afterwards, and a
second incremental run short-circuits with "no changes" — never retrying the
failed target. -/
theorem c10_tracking_refreshed_despite_failure (reg : Registry) (w : World)
    (s : String) (t1 t2 : TargetConfig) (st : TrackerState)
    (hvalid : (tmValidateTargets reg [t1, t2]).1 = true)
    (hchanged : getChangedSourceFiles w st [s] = [s])
    (he1 : (t1.enabled == some false) = false)
    (he2 : (t2.enabled == some false) = false)
    (h1 : (tmSync reg w s t1).success = true)
    (h2 : (tmSync reg w s t2).success = false) :
    (incrementalSync reg w ⟨[s], [t1, t2], "incremental"⟩ st).1.success = false ∧
    hasChanged w.resolve (worldInfo w)
      (incrementalSync reg w ⟨[s], [t1, t2], "incremental"⟩ st).2.2 s = false ∧
    incrementalSync reg w ⟨[s], [t1, t2], "incremental"⟩
        (incrementalSync reg w ⟨[s], [t1, t2], "incremental"⟩ st).2.2 =
      ({ success := true, message := "No changes detected, sync skipped",
         files := [], errors := [] }, [],
        (incrementalSync reg w ⟨[s], [t1, t2], "incremental"⟩ st).2.2) := by
  have hex := tmSync_success_sourceExists reg w s t1 h1
  obtain ⟨i, hi⟩ := worldInfo_ok_of_exists w s hex
  have htr := track_ok_of_info w.resolve (worldInfo w) st s i hi
  obtain ⟨e, he⟩ := tmSync_fail_errors reg w s t2 h2
  have hnoch := hasChanged_trackerSet w.resolve (worldInfo w) st s i hi
  have htracker : (incrementalSync reg w ⟨[s], [t1, t2], "incremental"⟩ st).2.2 =
      trackerSet st (w.resolve s) i := by
    simp [incrementalSync, hvalid, hchanged, incSourceLoop, incPairLoop,
      he1, he2, h1, h2, htr]
  have hch2 : getChangedSourceFiles w (trackerSet st (w.resolve s) i) [s] = [] := by
    simp [getChangedSourceFiles, hex, hnoch]
  refine ⟨?_, ?_, ?_⟩
  · simp [incrementalSync, hvalid, hchanged, incSourceLoop, incPairLoop,
      he1, he2, h1, h2, htr, he]
  · rw [htracker]; exact hnoch
  · rw [htracker]
    simp [incrementalSync, hvalid, hch2]

/-- C10 witness: the refresh-then-skip behaviour on the concrete two-target
scenario where writing to `bad/a.md` fails. -/
theorem c10_tracking_refreshed_despite_failure_witness :
    (incrementalSync c6Reg c10World ⟨["a.md"], [c10T1, c10T2], "incremental"⟩
      []).1.success = false ∧
    hasChanged c10World.resolve (worldInfo c10World)
      (incrementalSync c6Reg c10World ⟨["a.md"], [c10T1, c10T2], "incremental"⟩
        []).2.2 "a.md" = false ∧
    incrementalSync c6Reg c10World ⟨["a.md"], [c10T1, c10T2], "incremental"⟩
        (incrementalSync c6Reg c10World ⟨["a.md"], [c10T1, c10T2], "incremental"⟩
          []).2.2 =
      ({ success := true, message := "No changes detected, sync skipped",
         files := [], errors := [] }, [],
        (incrementalSync c6Reg c10World ⟨["a.md"], [c10T1, c10T2], "incremental"⟩
          []).2.2) :=
  c10_tracking_refreshed_despite_failure c6Reg c10World "a.md" c10T1 c10T2 []
    (by decide) (by decide) (by decide) (by decide) (by decide) (by decide)

end AiContextSync

